import Mathlib

/-!
# Verification of the apm-server error-event pipeline

Shallow embedding of `src/model/error/event.go` (package `error` of the
apm-server repository): the typed `Event` data model, the grouping-key
computation (`calcGroupingKey`, `addEither`), culprit resolution
(`updateCulprit`, `findSmappedNonLibraryFrame`), the transform fragment
that emits the `transaction` sub-object, the timestamp resolution, the
exception `code` normalization (`addException`), and the decoder
(`DecodeEvent`).

Conventions of the embedding:
* Go pointers to scalars (`*string`, `*bool`) become `Option`.
* The MD5 digest (external stdlib `crypto/md5`) is modelled by the list of
  strings written to it, in order: the hex digest is a function of the
  concatenation of that list, so digest facts ("digest of the empty
  input", equality of digests) are stated as facts about the fed list.
* `go` integer-to-string conversion `string(i)` is the Unicode code-point
  conversion, embedded as `goStringOfNat`.
* `time.Time` values are embedded as `Option Int` (microseconds since the
  Unix epoch); `none` models the Go zero value `time.Time{}`, which is
  what the decoder produces for an absent timestamp, so `IsZero`
  becomes `Option.isNone`.
-/

namespace ApmError

/-- A decoded JSON value held in a Go `interface{}` slot
(`map[string]interface{}` after `encoding/json` unmarshalling).
Numbers are kept exact as rationals. -/
inductive RVal where
  | rStr (s : String)
  | rNum (q : ℚ)
  | rBool (b : Bool)
  | rNull
  | rArr (vs : List RVal)
  | rObj (fields : List (String × RVal))

/-- Go's integer-to-string conversion `string(i)`: the UTF-8 string of the
single rune whose code point is `i`, or the replacement character
`"�"` when `i` is not a valid code point (surrogates, out of range).
`StacktraceFrame.Lineno` is non-negative, so `Nat` suffices. -/
def goStringOfNat (n : Nat) : String :=
  if n.isValidChar then String.mk [Char.ofNat n] else "�"

/-- Modelled from the spec: `m.StacktraceFrame` (package `model`, not part
of `src/`). Spec §3: `filename`, optional `function` and `module`, numeric
`lineNumber`, `excludeFromGrouping`, plus the two derived capability
queries `IsLibraryFrame()` and `IsSourcemapApplied()`, embedded as the
Boolean results of those queries. -/
structure StacktraceFrame where
  filename : String
  function : Option String
  module : Option String
  lineno : Nat
  excludeFromGrouping : Bool
  libraryFrame : Bool
  sourcemapApplied : Bool
deriving DecidableEq, Repr

/-- The polymorphic `Exception.Code interface{}` slot, as the tagged
variant of the runtime types the transform switches on
(`int`, `float64`, `string`, `json.Number`), plus absent (`nil`) and
"any other runtime type". Finite `float64` values are exact rationals. -/
inductive CodeVal where
  | cInt (n : Int)
  | cFloat (q : ℚ)
  | cStr (s : String)
  | cNumber (s : String)
  | cNull
  | cOther
deriving DecidableEq

/-- `type Exception struct` of `src/model/error/event.go`. -/
structure Exception where
  message : Option String
  module : Option String
  code : CodeVal
  attributes : Option RVal
  stacktrace : List StacktraceFrame
  type : Option String
  handled : Option Bool

/-- `type Log struct` of `src/model/error/event.go`. -/
structure Log where
  message : String
  level : Option String
  paramMessage : Option String
  loggerName : Option String
  stacktrace : List StacktraceFrame

/-- `type Event struct` of `src/model/error/event.go`, restricted to the
fields this file's claims touch; the context-bundle references (user,
labels, page, http, url, custom, service, experimental) are owned by
external collaborators (spec §1) and carry no behavior verified here. -/
structure Event where
  id : Option String
  transactionId : Option String
  traceId : Option String
  parentId : Option String
  timestamp : Option Int
  culprit : Option String
  exception : Option Exception
  log : Option Log
  transactionSampled : Option Bool
  transactionType : Option String

/-- An `Event` with every field absent. -/
def emptyEvent : Event :=
  { id := none, transactionId := none, traceId := none, parentId := none
    timestamp := none, culprit := none, exception := none, log := none
    transactionSampled := none, transactionType := none }

/-! ## Grouping key (`groupingKey`, `calcGroupingKey`) -/

/-- `type groupingKey struct`: the md5 state is modelled by the list of
strings written to it, in order (`fed`); `hash.Sum`'s hex encoding is a
function of the concatenation of `fed`. -/
structure GroupingKey where
  fed : List String
  empty : Bool
deriving DecidableEq, Repr

/-- `newGroupingKey`. -/
def newGroupingKey : GroupingKey := { fed := [], empty := true }

/-- `func (k *groupingKey) add(s *string) bool`. -/
def GroupingKey.add (k : GroupingKey) (s : Option String) : GroupingKey × Bool :=
  match s with
  | none => (k, false)
  | some s => ({ fed := k.fed ++ [s], empty := false }, true)

/-- `func (k *groupingKey) addEither(s1 *string, s2 string)`. -/
def GroupingKey.addEither (k : GroupingKey) (s1 : Option String) (s2 : String) : GroupingKey :=
  match k.add s1 with
  | (k1, true) => k1
  | (k1, false) => (k1.add (some s2)).1

/-- The stacktrace selection of `calcGroupingKey`: `var st m.Stacktrace`
(nil), overwritten by the Exception's stacktrace when an Exception is
present, then replaced by the Log's stacktrace when a Log is present and
`st == nil || len(st) == 0`. -/
def groupingStacktrace (e : Event) : List StacktraceFrame :=
  let st : List StacktraceFrame :=
    match e.exception with
    | some ex => ex.stacktrace
    | none => []
  match e.log with
  | some l => if st.isEmpty then l.stacktrace else st
  | none => st

/-- The identity feeds of `calcGroupingKey`: the Exception's `Type` and
the Log's `ParamMessage`, in that order. -/
def groupingIdentity (e : Event) : GroupingKey :=
  let k := newGroupingKey
  let k :=
    match e.exception with
    | some ex => (k.add ex.type).1
    | none => k
  match e.log with
  | some l => (k.add l.paramMessage).1
  | none => k

/-- The body of the frame loop of `calcGroupingKey`: skip frames with
`ExcludeFromGrouping`, else `addEither(fr.Module, fr.Filename)` then
`addEither(fr.Function, string(fr.Lineno))`. -/
def frameContribution (k : GroupingKey) (fr : StacktraceFrame) : GroupingKey :=
  if fr.excludeFromGrouping then k
  else (k.addEither fr.module fr.filename).addEither fr.function (goStringOfNat fr.lineno)

/-- The grouping-key state after the frame loop of `calcGroupingKey`. -/
def groupingAfterFrames (e : Event) : GroupingKey :=
  (groupingStacktrace e).foldl frameContribution (groupingIdentity e)

/-- `calcGroupingKey`, up to the final hex encoding: the message-fallback
step applies when the digest is still `empty`. -/
def calcGroupingKeyState (e : Event) : GroupingKey :=
  let k := groupingAfterFrames e
  if k.empty then
    match e.exception with
    | some ex => (k.add ex.message).1
    | none =>
      match e.log with
      | some l => (k.add (some l.message)).1
      | none => k
  else k

/-- The complete sequence of strings `calcGroupingKey` writes into the md5
digest; the grouping key returned by the source is
`hex(md5(String.join of this list))`. -/
def calcGroupingKeyInputs (e : Event) : List String :=
  (calcGroupingKeyState e).fed

/-- Whether the message-fallback branch (`if k.empty`) of
`calcGroupingKey` is taken. -/
def messageFallbackUsed (e : Event) : Bool :=
  (groupingAfterFrames e).empty

/-! ## Culprit resolution (`updateCulprit`, `findSmappedNonLibraryFrame`) -/

/-- `findSmappedNonLibraryFrame`: first frame with a source map applied
that is not a library frame. -/
def findSmappedNonLibraryFrame (frames : List StacktraceFrame) : Option StacktraceFrame :=
  frames.find? fun fr => fr.sourcemapApplied && !fr.libraryFrame

/-- The culprit string built by `updateCulprit`:
`fmt.Sprintf("%v", fr.Filename)`, extended with `" in <function>"` when
the frame has a function. -/
def culpritString (fr : StacktraceFrame) : String :=
  match fr.function with
  | some fn => fr.filename ++ " in " ++ fn
  | none => fr.filename

/-- `updateCulprit`: no-op unless a source-map mapper is configured
(`tctx.Config.SmapMapper == nil`, embedded as the Boolean
`smapMapperConfigured`); searches the Log's stacktrace, then the
Exception's, and overwrites `e.Culprit` when a frame is found. -/
def updateCulprit (smapMapperConfigured : Bool) (e : Event) : Event :=
  if smapMapperConfigured = false then e
  else
    let fr : Option StacktraceFrame :=
      match e.log with
      | some l => findSmappedNonLibraryFrame l.stacktrace
      | none => none
    let fr : Option StacktraceFrame :=
      match fr with
      | some f => some f
      | none =>
        match e.exception with
        | some ex => findSmappedNonLibraryFrame ex.stacktrace
        | none => none
    match fr with
    | none => e
    | some f => { e with culprit := some (culpritString f) }

/-! ## Output document model (`common.MapStr`, `utility.Set`) -/

/-- A value of the output document (`common.MapStr` entries). `oRaw`
passes an opaque decoded value through verbatim (`attributes`,
`experimental`). -/
inductive OVal where
  | oStr (s : String)
  | oBool (b : Bool)
  | oInt (n : Int)
  | oObj (kvs : List (String × OVal))
  | oArr (vs : List OVal)
  | oRaw (v : RVal)

/-- Key update on a string-keyed map (`common.MapStr.Put`): replace the
value when the key exists, else append the binding. -/
def mput (m : List (String × OVal)) (key : String) (v : OVal) : List (String × OVal) :=
  match m with
  | [] => [(key, v)]
  | (k, w) :: rest => if k = key then (key, v) :: rest else (k, w) :: mput rest key v

/-- Modelled from the spec: `utility.Set(obj, key, val)` (package
`utility`, not part of `src/`) — spec §4.4: a field is set only if
non-absent, an absent value leaves no key (never a null); deletes the
key when the value is absent (`nil`), else stores it. -/
def mset (m : List (String × OVal)) (key : String) (v : Option OVal) : List (String × OVal) :=
  match v with
  | none => m.filter fun kv => kv.1 != key
  | some v => mput m key v

/-- Key lookup on the output document. -/
def mget (m : List (String × OVal)) (key : String) : Option OVal :=
  (m.find? fun kv => kv.1 == key).map (·.2)

/-! ## Transform fragments (`Transform`, `addException`) -/

/-- The guard of the `transaction` sub-object in `Transform`:
`e.TransactionSampled != nil || e.TransactionType != nil ||
(e.TransactionId != nil && *e.TransactionId != "")`. -/
def transactionGuard (e : Event) : Bool :=
  e.transactionSampled.isSome || e.transactionType.isSome ||
    (match e.transactionId with
     | some tid => tid != ""
     | none => false)

/-- The `transaction` step of `Transform`: when the guard holds, build
the sub-object from `id`, `type`, `sampled` (each skipped by
`utility.Set` when absent) and store it under `"transaction"`. -/
def transformTransaction (e : Event) (fields : List (String × OVal)) : List (String × OVal) :=
  if transactionGuard e then
    let transaction : List (String × OVal) := []
    let transaction := mset transaction "id" (e.transactionId.map .oStr)
    let transaction := mset transaction "type" (e.transactionType.map .oStr)
    let transaction := mset transaction "sampled" (e.transactionSampled.map .oBool)
    mput fields "transaction" (.oObj transaction)
  else fields

/-- The timestamp resolution of `Transform`: `if e.Timestamp.IsZero() {
e.Timestamp = tctx.RequestTime }`. Times are microseconds since epoch
(`utility.TimeAsMicros`); `none` is the Go zero value. -/
def resolveTimestamp (e : Event) (requestTime : Int) : Int :=
  match e.timestamp with
  | none => requestTime
  | some t => t

/-- The tail of `Transform` relevant to the claims, applied to the
document `base` produced by the earlier (externally-owned) metadata and
context overlays: the `transaction` step followed by the `timestamp`
write (`utility.Set(fields, "timestamp", utility.TimeAsMicros(...))`). -/
def transformDoc (e : Event) (requestTime : Int) (base : List (String × OVal)) : List (String × OVal) :=
  let fields := transformTransaction e base
  mput fields "timestamp" (.oInt (resolveTimestamp e requestTime))

/-- Rounding half to even, the rounding mode of Go's `fmt` `%.0f`
formatting. -/
def roundHalfEven (q : ℚ) : Int :=
  let f := ⌊q⌋
  let r := q - f
  if r < 1/2 then f
  else if r > 1/2 then f + 1
  else if f % 2 = 0 then f else f + 1

/-- `fmt.Sprintf("%.0f", x)` on a finite `float64` value: the decimal
string of the value rounded half-to-even to an integer, keeping the sign
when a negative value rounds to zero. -/
def goFmtF0 (q : ℚ) : String :=
  let n := roundHalfEven q
  if n = 0 ∧ q < 0 then "-0" else toString n

/-- The exception sub-object built by `addException`: `message`,
`module`, `attributes`, `type`, `handled` via `utility.Set`, then the
`switch` on the runtime type of `Code`. The `"stacktrace"` entry is
produced by the external stacktrace-transform collaborator
(spec §4.4 point 11) and is not modelled; it does not touch the keys
below. -/
def addExceptionFields (ex : Exception) : List (String × OVal) :=
  let m : List (String × OVal) := []
  let m := mset m "message" (ex.message.map .oStr)
  let m := mset m "module" (ex.module.map .oStr)
  let m := mset m "attributes" (ex.attributes.map .oRaw)
  let m := mset m "type" (ex.type.map .oStr)
  let m := mset m "handled" (ex.handled.map .oBool)
  match ex.code with
  | .cInt n => mput m "code" (.oStr (toString n))
  | .cFloat q => mput m "code" (.oStr (goFmtF0 q))
  | .cStr s => mput m "code" (.oStr s)
  | .cNumber s => mput m "code" (.oStr s)
  | .cNull => m
  | .cOther => m

/-! ## Decoder (`DecodeEvent`)

`utility.ManualDecoder`, `m.DecodeContext` and `m.DecodeStacktrace` are
external to `src/`; their behavior is modelled from the spec (§4.1, §7):
absent or `null` fields decode to absent without error, a present value
of the wrong type yields an accumulated `FieldDecodeError`, and decoding
continues through every field. -/

/-- Lookup of a key in a raw string-keyed map. -/
def lookupRaw (m : List (String × RVal)) (key : String) : Option RVal :=
  (m.find? fun kv => kv.1 == key).map (·.2)

/-- Modelled from the spec: `ManualDecoder.StringPtr` value — a string
when the field holds one, absent otherwise. -/
def stringPtrVal (m : List (String × RVal)) (key : String) : Option String :=
  match lookupRaw m key with
  | some (.rStr s) => some s
  | _ => none

/-- Modelled from the spec: the `FieldDecodeError` contributed by
`ManualDecoder.StringPtr` — a present, non-null, non-string value is a
wrong-type failure; absent and `null` are not. -/
def stringPtrErrs (m : List (String × RVal)) (key : String) : List String :=
  match lookupRaw m key with
  | none => []
  | some .rNull => []
  | some (.rStr _) => []
  | some _ => ["error fetching field " ++ key]

/-- Modelled from the spec: `ManualDecoder.BoolPtr` value. -/
def boolPtrVal (m : List (String × RVal)) (key : String) : Option Bool :=
  match lookupRaw m key with
  | some (.rBool b) => some b
  | _ => none

/-- Modelled from the spec: the `FieldDecodeError` contributed by
`ManualDecoder.BoolPtr`. -/
def boolPtrErrs (m : List (String × RVal)) (key : String) : List String :=
  match lookupRaw m key with
  | none => []
  | some .rNull => []
  | some (.rBool _) => []
  | some _ => ["error fetching field " ++ key]

/-- Modelled from the spec: `ManualDecoder.MapStr` — the nested map when
the field holds one, the empty (nil) map otherwise. -/
def mapStrVal (m : List (String × RVal)) (key : String) : List (String × RVal) :=
  match lookupRaw m key with
  | some (.rObj kvs) => kvs
  | _ => []

/-- Modelled from the spec: the `FieldDecodeError` contributed by
`ManualDecoder.MapStr`. -/
def mapStrErrs (m : List (String × RVal)) (key : String) : List String :=
  match lookupRaw m key with
  | none => []
  | some .rNull => []
  | some (.rObj _) => []
  | some _ => ["error fetching field " ++ key]

/-- Modelled from the spec: `ManualDecoder.TimeEpochMicro` value — the
timestamp is an integer count of microseconds since epoch; absent (or
`null`) decodes to the Go zero time (`none`). -/
def timeEpochMicroVal (m : List (String × RVal)) (key : String) : Option Int :=
  match lookupRaw m key with
  | some (.rNum q) => if q.den = 1 then some q.num else none
  | _ => none

/-- Modelled from the spec: the `FieldDecodeError` contributed by
`ManualDecoder.TimeEpochMicro` (malformed timestamp). -/
def timeEpochMicroErrs (m : List (String × RVal)) (key : String) : List String :=
  match lookupRaw m key with
  | none => []
  | some .rNull => []
  | some (.rNum q) => if q.den = 1 then [] else ["error fetching field " ++ key]
  | some _ => ["error fetching field " ++ key]

/-- `ManualDecoder.Interface` on the `code` field: the raw value tagged
by its runtime type after JSON unmarshalling (numbers arrive as
`float64`). -/
def interfaceCode (m : List (String × RVal)) (key : String) : CodeVal :=
  match lookupRaw m key with
  | none => .cNull
  | some .rNull => .cNull
  | some (.rNum q) => .cFloat q
  | some (.rStr s) => .cStr s
  | some (.rBool _) => .cOther
  | some (.rArr _) => .cOther
  | some (.rObj _) => .cOther

/-- `ManualDecoder.Interface` on an opaque field (`attributes`). -/
def interfaceRaw (m : List (String × RVal)) (key : String) : Option RVal :=
  match lookupRaw m key with
  | none => none
  | some .rNull => none
  | some v => some v

/-- Modelled from the spec: decoding of one stacktrace frame by the
external frame-decoder collaborator — an object with a string
`filename` yields a frame; anything else is a decode failure. The
remaining frame fields do not influence any claim settled here and
default to absent. -/
def decodeFrameM (v : RVal) : Option StacktraceFrame × List String :=
  match v with
  | .rObj kvs =>
    match stringPtrVal kvs "filename" with
    | some f =>
      (some
        { filename := f
          function := stringPtrVal kvs "function"
          module := stringPtrVal kvs "module"
          lineno :=
            match lookupRaw kvs "lineno" with
            | some (.rNum q) => q.num.toNat
            | _ => 0
          excludeFromGrouping := (boolPtrVal kvs "exclude_from_grouping").getD false
          libraryFrame := (boolPtrVal kvs "library_frame").getD false
          sourcemapApplied := false }, [])
    | none => (none, ["error decoding stacktrace frame"])
  | _ => (none, ["error decoding stacktrace frame"])

/-- Modelled from the spec: `m.DecodeStacktrace` — an absent or `null`
stacktrace decodes to no stacktrace without error; an array decodes its
frames, accumulating every frame's failure; any other value is a decode
failure. Always attempted when the parent object is constructed, and its
failures accumulate rather than abort (spec §4.1). -/
def decodeStacktraceM (v : Option RVal) : Option (List StacktraceFrame) × List String :=
  match v with
  | none => (none, [])
  | some .rNull => (none, [])
  | some (.rArr vs) =>
    let results := vs.map decodeFrameM
    (some (results.filterMap (·.1)), results.foldr (fun r acc => r.2 ++ acc) [])
  | some _ => (none, ["error decoding stacktrace"])

/-- The errors accumulated while decoding the scalar fields of the
`Event` struct literal in `DecodeEvent`, in source order. -/
def scalarFieldErrs (raw : List (String × RVal)) : List String :=
  stringPtrErrs raw "id" ++ stringPtrErrs raw "culprit" ++
  timeEpochMicroErrs raw "timestamp" ++
  stringPtrErrs raw "transaction_id" ++ stringPtrErrs raw "parent_id" ++
  stringPtrErrs raw "trace_id" ++
  boolPtrErrs (mapStrVal raw "transaction") "sampled" ++
  stringPtrErrs (mapStrVal raw "transaction") "type"

/-- The exception part of `DecodeEvent`: the constructed sub-object (when
the presence rule fires) and the errors it accumulates. -/
def decodeExceptionPart (raw : List (String × RVal)) : Option Exception × List String :=
  let ex := mapStrVal raw "exception"
  let exBaseErrs := mapStrErrs raw "exception" ++
    stringPtrErrs ex "message" ++ stringPtrErrs ex "type"
  let exMsg := stringPtrVal ex "message"
  let exType := stringPtrVal ex "type"
  if exMsg.isSome || exType.isSome then
    let (stacktr, stErrs) := decodeStacktraceM (lookupRaw ex "stacktrace")
    (some
      { message := exMsg
        type := exType
        code := interfaceCode ex "code"
        module := stringPtrVal ex "module"
        attributes := interfaceRaw ex "attributes"
        handled := boolPtrVal ex "handled"
        stacktrace := stacktr.getD [] },
      exBaseErrs ++ stringPtrErrs ex "module" ++ boolPtrErrs ex "handled" ++ stErrs)
  else (none, exBaseErrs)

/-- The log part of `DecodeEvent`: the constructed sub-object (when the
presence rule fires) and the errors it accumulates. -/
def decodeLogPart (raw : List (String × RVal)) : Option Log × List String :=
  let log := mapStrVal raw "log"
  let logBaseErrs := mapStrErrs raw "log" ++ stringPtrErrs log "message"
  match stringPtrVal log "message" with
  | some msg =>
    let (stacktr, stErrs) := decodeStacktraceM (lookupRaw log "stacktrace")
    (some
      { message := msg
        paramMessage := stringPtrVal log "param_message"
        level := stringPtrVal log "level"
        loggerName := stringPtrVal log "logger_name"
        stacktrace := stacktr.getD [] },
      logBaseErrs ++ stringPtrErrs log "param_message" ++ stringPtrErrs log "level" ++
        stringPtrErrs log "logger_name" ++ stErrs)
  | none => (none, logBaseErrs)

/-- `DecodeEvent`. The incoming error parameter and the result of the
external `m.DecodeContext` call are arguments; the result is the
`(Transformable, error)` pair, with the accumulated decoder error as a
list of field failures (`[]` is the nil error). -/
def decodeEvent (input : Option RVal) (ctx : Except String Unit) (errIn : Option String) :
    Option Event × List String :=
  match errIn with
  | some msg => (none, [msg])
  | none =>
    match input with
    | none => (none, ["Input missing for decoding Event"])
    | some (.rObj raw) =>
      match ctx with
      | .error cmsg => (none, [cmsg])
      | .ok _ =>
        let (exc, excErrs) := decodeExceptionPart raw
        let (lg, lgErrs) := decodeLogPart raw
        let e : Event :=
          { id := stringPtrVal raw "id"
            culprit := stringPtrVal raw "culprit"
            timestamp := timeEpochMicroVal raw "timestamp"
            transactionId := stringPtrVal raw "transaction_id"
            parentId := stringPtrVal raw "parent_id"
            traceId := stringPtrVal raw "trace_id"
            transactionSampled := boolPtrVal (mapStrVal raw "transaction") "sampled"
            transactionType := stringPtrVal (mapStrVal raw "transaction") "type"
            exception := exc
            log := lg }
        let errs := scalarFieldErrs raw ++ excErrs ++ lgErrs
        if errs.isEmpty then (some e, []) else (none, errs)
    | some _ => (none, ["invalid type for error event"])

/-! ## Helper lemmas: grouping key -/

theorem GroupingKey.add_fst_fed (k : GroupingKey) (s : Option String) :
    ((k.add s).1).fed = k.fed ++ s.toList := by
  cases s <;> simp [GroupingKey.add]

theorem GroupingKey.add_fst_empty (k : GroupingKey) (s : Option String) :
    ((k.add s).1).empty = (k.empty && s.isNone) := by
  cases s <;> simp [GroupingKey.add]

/-- `addEither` always writes exactly one string — the first argument
when present, otherwise the second — and always clears the empty flag. -/
theorem GroupingKey.addEither_eq (k : GroupingKey) (s1 : Option String) (s2 : String) :
    k.addEither s1 s2 = { fed := k.fed ++ [s1.getD s2], empty := false } := by
  cases s1 <;> rfl

/-- The two strings a non-excluded frame feeds into the digest. -/
def frameFeeds (fr : StacktraceFrame) : List String :=
  [fr.module.getD fr.filename, fr.function.getD (goStringOfNat fr.lineno)]

theorem frameContribution_eq (k : GroupingKey) (fr : StacktraceFrame) :
    frameContribution k fr =
      if fr.excludeFromGrouping then k
      else { fed := k.fed ++ frameFeeds fr, empty := false } := by
  unfold frameContribution
  split
  · rfl
  · rw [GroupingKey.addEither_eq, GroupingKey.addEither_eq]
    simp [frameFeeds]

/-- The strings the frame loop feeds, frames in order, excluded frames
skipped. -/
def framesFeeds (frames : List StacktraceFrame) : List String :=
  frames.foldr (fun fr acc => if fr.excludeFromGrouping then acc else frameFeeds fr ++ acc) []

theorem foldl_frameContribution_fed (frames : List StacktraceFrame) :
    ∀ k : GroupingKey, (frames.foldl frameContribution k).fed = k.fed ++ framesFeeds frames := by
  induction frames with
  | nil => intro k; simp [framesFeeds]
  | cons fr rest ih =>
    intro k
    rw [List.foldl_cons, ih, frameContribution_eq]
    by_cases hx : fr.excludeFromGrouping <;> simp [framesFeeds, hx]

theorem foldl_frameContribution_empty (frames : List StacktraceFrame) :
    ∀ k : GroupingKey,
      (frames.foldl frameContribution k).empty =
        (k.empty && frames.all (·.excludeFromGrouping)) := by
  induction frames with
  | nil => intro k; simp
  | cons fr rest ih =>
    intro k
    rw [List.foldl_cons, ih, frameContribution_eq]
    by_cases hx : fr.excludeFromGrouping <;> simp [hx]

theorem framesFeeds_eq_nil_of_all_excluded (frames : List StacktraceFrame)
    (h : frames.all (·.excludeFromGrouping) = true) : framesFeeds frames = [] := by
  induction frames with
  | nil => rfl
  | cons fr rest ih =>
    simp only [List.all_cons, Bool.and_eq_true] at h
    have hstep : framesFeeds (fr :: rest) = framesFeeds rest := by
      simp [framesFeeds, h.1]
    rw [hstep, ih h.2]

theorem framesFeeds_filter_form (frames : List StacktraceFrame) :
    framesFeeds frames =
      (frames.filter fun fr => !fr.excludeFromGrouping).foldr
        (fun fr acc =>
          fr.module.getD fr.filename :: fr.function.getD (goStringOfNat fr.lineno) :: acc)
        [] := by
  induction frames with
  | nil => rfl
  | cons fr rest ih =>
    by_cases hx : fr.excludeFromGrouping <;>
      simp [framesFeeds, List.filter_cons, hx, frameFeeds] at * <;>
      simpa [framesFeeds] using ih

/-- The empty flag survives an `add` only when nothing was written. -/
theorem GroupingKey.add_fed_of_empty (k : GroupingKey) (s : Option String)
    (hk : k.empty = true → k.fed = []) (h : ((k.add s).1).empty = true) :
    ((k.add s).1).fed = [] := by
  cases s with
  | none => exact hk h
  | some s => simp [GroupingKey.add] at h

/-- If the empty flag is still set after the identity feeds, nothing was
written to the digest by them. -/
theorem groupingIdentity_fed_of_empty (e : Event)
    (h : (groupingIdentity e).empty = true) : (groupingIdentity e).fed = [] := by
  unfold groupingIdentity at h ⊢
  cases hx : e.exception <;> cases hl : e.log <;> simp only [hx, hl] at h ⊢
  · rfl
  · exact GroupingKey.add_fed_of_empty _ _ (fun _ => rfl) h
  · exact GroupingKey.add_fed_of_empty _ _ (fun _ => rfl) h
  · exact GroupingKey.add_fed_of_empty _ _ (GroupingKey.add_fed_of_empty _ _ (fun _ => rfl)) h

/-- If the empty flag is still set after the frame loop, nothing was
written to the digest. -/
theorem groupingAfterFrames_fed_of_empty (e : Event)
    (h : (groupingAfterFrames e).empty = true) : (groupingAfterFrames e).fed = [] := by
  rw [groupingAfterFrames, foldl_frameContribution_empty, Bool.and_eq_true] at h
  rw [groupingAfterFrames, foldl_frameContribution_fed,
    framesFeeds_eq_nil_of_all_excluded _ h.2, List.append_nil]
  exact groupingIdentity_fed_of_empty e h.1

/-- A frame not flagged `excludeFromGrouping` in the active stacktrace
forces the digest non-empty, so the message fallback cannot fire. -/
theorem messageFallbackUsed_false_of_nonexcluded (e : Event)
    (h : ∃ fr ∈ groupingStacktrace e, fr.excludeFromGrouping = false) :
    messageFallbackUsed e = false := by
  obtain ⟨fr, hm, hfr⟩ := h
  rw [messageFallbackUsed, groupingAfterFrames, foldl_frameContribution_empty]
  have : (groupingStacktrace e).all (·.excludeFromGrouping) = false := by
    rw [List.all_eq_false]
    exact ⟨fr, hm, by simp [hfr]⟩
  simp [this]

/-- When the fallback branch is not taken, the digest inputs are exactly
those of the frame loop. -/
theorem calcGroupingKeyInputs_of_not_fallback (e : Event)
    (h : messageFallbackUsed e = false) :
    calcGroupingKeyInputs e = (groupingAfterFrames e).fed := by
  rw [messageFallbackUsed] at h
  rw [calcGroupingKeyInputs, calcGroupingKeyState]
  simp [h]

/-! ## Concrete fixtures -/

/-- A frame with every optional field absent, empty filename, line 0. -/
def frBase : StacktraceFrame :=
  { filename := "", function := none, module := none, lineno := 0
    excludeFromGrouping := false, libraryFrame := false, sourcemapApplied := false }

/-- An exception with every field absent and an empty stacktrace. -/
def exBase : Exception :=
  { message := none, module := none, code := .cNull, attributes := none
    stacktrace := [], type := none, handled := none }

/-- A log with empty message, all optional fields absent. -/
def logBase : Log :=
  { message := "", level := none, paramMessage := none, loggerName := none
    stacktrace := [] }

/-- Event with one groupable frame at line 0 without module/function. -/
def evLineno : Event :=
  { emptyEvent with exception := some { exBase with stacktrace := [{ frBase with filename := "f.js" }] } }

/-! ## C1: frame feeds of the grouping key -/

/-- C1, counterexample: for a frame at line number 0 with no function,
the grouping digest is fed the one-character string at code point 0
(Go's `string(fr.Lineno)` conversion), not the decimal string `"0"`. -/
theorem groupingKey_lineno_not_decimal_counterexample :
    calcGroupingKeyInputs evLineno = ["f.js", "\x00"] ∧
    calcGroupingKeyInputs evLineno ≠ ["f.js", "0"] := by
  constructor
  · decide
  · decide

/-- C1, amended: the grouping-key computation processes the frames of
the active stacktrace in order, skips every frame flagged
`excludeFromGrouping`, and for each remaining frame feeds the frame's
module if present else its filename, then the frame's function if
present else the string containing the single Unicode code point equal
to its line number (`goStringOfNat`, embedding Go's `string(int)`
conversion; a zero line number contributes `"\x00"`). -/
theorem groupingKey_frames_feed_module_filename_function_lineno (e : Event) :
    (groupingAfterFrames e).fed =
      (groupingIdentity e).fed ++
        ((groupingStacktrace e).filter fun fr => !fr.excludeFromGrouping).foldr
          (fun fr acc =>
            fr.module.getD fr.filename :: fr.function.getD (goStringOfNat fr.lineno) :: acc)
          [] := by
  rw [groupingAfterFrames, foldl_frameContribution_fed, framesFeeds_filter_form]

/-! ## C2: stacktrace preference -/

/-- Exception with empty stacktrace and a message, log with a non-empty
stacktrace whose only frame is excluded from grouping. -/
def evLogPref : Event :=
  { emptyEvent with
    exception := some { exBase with message := some "boom" }
    log := some { logBase with
      message := "logmsg"
      stacktrace := [{ frBase with filename := "f.js", lineno := 1, excludeFromGrouping := true }] } }

/-- C2, counterexample: an Event whose Exception has an empty stacktrace
and whose Log has a non-empty stacktrace, but every Log frame is flagged
`excludeFromGrouping` and neither exception type nor log param message is
present: the Log's stacktrace is selected, yet the digest stays empty and
the message fallback fires — it hashes the Exception's message. -/
theorem grouping_log_stacktrace_fallback_counterexample :
    evLogPref.exception.map Exception.stacktrace = some [] ∧
    (evLogPref.log.map fun l => l.stacktrace.isEmpty) = some false ∧
    messageFallbackUsed evLogPref = true ∧
    calcGroupingKeyInputs evLogPref = ["boom"] := by
  decide

/-- C2, amended: when an Exception is present with an empty stacktrace
and a Log is present with a non-empty stacktrace, the grouping-key
computation selects the Log's stacktrace as the active one (preference
for a non-empty stacktrace, not for the Exception); and provided at
least one of the Log's frames is not flagged `excludeFromGrouping`, no
message fallback is used. -/
theorem grouping_prefers_nonempty_log_stacktrace (e : Event) (ex : Exception) (l : Log)
    (hex : e.exception = some ex) (hst : ex.stacktrace = [])
    (hl : e.log = some l) (_hne : l.stacktrace ≠ []) :
    groupingStacktrace e = l.stacktrace ∧
    ((∃ fr ∈ l.stacktrace, fr.excludeFromGrouping = false) → messageFallbackUsed e = false) := by
  have hsel : groupingStacktrace e = l.stacktrace := by
    simp [groupingStacktrace, hex, hl, hst]
  exact ⟨hsel, fun hfr => messageFallbackUsed_false_of_nonexcluded e (by rw [hsel]; exact hfr)⟩

/-- Exception with empty stacktrace, log with one groupable frame. -/
def evLogPrefW : Event :=
  { emptyEvent with
    exception := some exBase
    log := some { logBase with message := "m", stacktrace := [frBase] } }

theorem grouping_prefers_nonempty_log_stacktrace_witness :
    groupingStacktrace evLogPrefW = [frBase] ∧ messageFallbackUsed evLogPrefW = false := by
  have h := grouping_prefers_nonempty_log_stacktrace evLogPrefW exBase
    { logBase with message := "m", stacktrace := [frBase] } rfl rfl rfl (by decide)
  exact ⟨h.1, h.2 (by decide)⟩

/-! ## C3: message fallback -/

/-- C3: when the digest is still empty after the exception type, the log
param message and the frame loop, the digest inputs are exactly the
Exception's message when an Exception is present, else the Log's message
when a Log is present; an Event with neither Exception nor Log feeds
nothing, so its grouping key is the hex digest of the empty input. -/
theorem grouping_message_fallback (e : Event) :
    (messageFallbackUsed e = true →
      calcGroupingKeyInputs e =
        match e.exception with
        | some ex => ex.message.toList
        | none =>
          match e.log with
          | some l => [l.message]
          | none => []) ∧
    (e.exception = none → e.log = none → calcGroupingKeyInputs e = []) := by
  constructor
  · intro h
    have hfed : (groupingAfterFrames e).fed = [] := groupingAfterFrames_fed_of_empty e h
    rw [messageFallbackUsed] at h
    rw [calcGroupingKeyInputs, calcGroupingKeyState]
    simp only [h, if_true]
    cases hx : e.exception with
    | some ex => rw [GroupingKey.add_fst_fed, hfed]; simp
    | none =>
      cases hl : e.log with
      | some l => rw [GroupingKey.add_fst_fed, hfed]; simp
      | none => exact hfed
  · intro hx hl
    simp [calcGroupingKeyInputs, calcGroupingKeyState, groupingAfterFrames,
      groupingStacktrace, groupingIdentity, hx, hl, newGroupingKey]

/-- Event with an Exception carrying only a message. -/
def evMsgFallback : Event :=
  { emptyEvent with exception := some { exBase with message := some "m" } }

theorem grouping_message_fallback_witness :
    calcGroupingKeyInputs evMsgFallback = ["m"] ∧ calcGroupingKeyInputs emptyEvent = [] := by
  constructor
  · exact ((grouping_message_fallback evMsgFallback).1 (by decide)).trans (by decide)
  · exact (grouping_message_fallback emptyEvent).2 rfl rfl

/-! ## C10: a groupable frame always feeds the digest -/

/-- C10: any frame of the active stacktrace not flagged
`excludeFromGrouping` forces the digest non-empty — the second argument
of each `addEither` pair is non-optional and always fed when the first
is absent — so the message fallback step never applies and the grouping
inputs are exactly those of the frame loop. -/
theorem grouping_nonexcluded_frame_prevents_fallback (e : Event)
    (h : ∃ fr ∈ groupingStacktrace e, fr.excludeFromGrouping = false) :
    messageFallbackUsed e = false ∧
    calcGroupingKeyInputs e = (groupingAfterFrames e).fed := by
  have hf := messageFallbackUsed_false_of_nonexcluded e h
  exact ⟨hf, calcGroupingKeyInputs_of_not_fallback e hf⟩

/-- Event whose only frame has absent module and function, empty
filename and line number 0 — the degenerate case of C10. -/
def evDegenerateFrame : Event :=
  { emptyEvent with exception := some { exBase with stacktrace := [frBase] } }

theorem grouping_nonexcluded_frame_prevents_fallback_witness :
    messageFallbackUsed evDegenerateFrame = false ∧
    calcGroupingKeyInputs evDegenerateFrame = (groupingAfterFrames evDegenerateFrame).fed :=
  grouping_nonexcluded_frame_prevents_fallback evDegenerateFrame (by decide)

/-! ## C4: culprit resolution -/

/-- The Log's frames, or none when no Log is present. -/
def eventLogStacktrace (e : Event) : List StacktraceFrame :=
  match e.log with
  | some l => l.stacktrace
  | none => []

/-- The Exception's frames, or none when no Exception is present. -/
def eventExceptionStacktrace (e : Event) : List StacktraceFrame :=
  match e.exception with
  | some ex => ex.stacktrace
  | none => []

theorem culpritString_eq (fr : StacktraceFrame) :
    culpritString fr =
      fr.filename ++ (match fr.function with | some fn => " in " ++ fn | none => "") := by
  cases hf : fr.function <;> simp [culpritString, hf, String.append_assoc]

/-- The two-stage search of `updateCulprit` equals a single search over
the Log frames followed by the Exception frames. -/
theorem updateCulprit_culprit_eq (e : Event) :
    (updateCulprit true e).culprit =
      match (eventLogStacktrace e ++ eventExceptionStacktrace e).find?
          (fun fr => fr.sourcemapApplied && !fr.libraryFrame) with
      | some f => some (culpritString f)
      | none => e.culprit := by
  rw [List.find?_append]
  unfold updateCulprit eventLogStacktrace eventExceptionStacktrace findSmappedNonLibraryFrame
  cases hl : e.log <;> cases hx : e.exception <;> simp only [hl, hx]
  · simp [List.find?]
  · rename_i ex
    cases hg : ex.stacktrace.find? (fun fr => fr.sourcemapApplied && !fr.libraryFrame) <;>
      simp [List.find?, hg, Option.or]
  · rename_i l
    cases hf : l.stacktrace.find? (fun fr => fr.sourcemapApplied && !fr.libraryFrame) <;>
      simp [List.find?, hf, Option.or]
  · rename_i l ex
    cases hf : l.stacktrace.find? (fun fr => fr.sourcemapApplied && !fr.libraryFrame) <;>
      cases hg : ex.stacktrace.find? (fun fr => fr.sourcemapApplied && !fr.libraryFrame) <;>
        simp [hf, hg, Option.or]

/-- C4: with a source-map mapper configured, culprit resolution finds the
first frame — Log's stacktrace searched before the Exception's — with a
source map applied that is not a library frame; a match overwrites
`Event.culprit` with `"<filename>"`, extended by `" in <function>"` when
the frame has a function, discarding any client-supplied culprit; no
match leaves `Event.culprit` unchanged. -/
theorem culprit_resolution (e : Event) :
    (∀ f, findSmappedNonLibraryFrame (eventLogStacktrace e ++ eventExceptionStacktrace e) = some f →
        (updateCulprit true e).culprit =
          some (f.filename ++ (match f.function with | some fn => " in " ++ fn | none => ""))) ∧
    (findSmappedNonLibraryFrame (eventLogStacktrace e ++ eventExceptionStacktrace e) = none →
        (updateCulprit true e).culprit = e.culprit) := by
  constructor
  · intro f hf
    rw [findSmappedNonLibraryFrame] at hf
    rw [updateCulprit_culprit_eq, hf]
    exact congrArg some (culpritString_eq f)
  · intro hf
    rw [findSmappedNonLibraryFrame] at hf
    rw [updateCulprit_culprit_eq, hf]

/-- A source-mapped library frame (not a culprit candidate). -/
def frNoMatch : StacktraceFrame :=
  { frBase with filename := "lib.js", sourcemapApplied := true, libraryFrame := true }

/-- A source-mapped application frame with a function name. -/
def frMatch : StacktraceFrame :=
  { frBase with filename := "file.js", function := some "fn", sourcemapApplied := true }

/-- Client-supplied culprit, Log stacktrace without a candidate,
Exception stacktrace with one. -/
def evCulprit : Event :=
  { emptyEvent with
    culprit := some "client-supplied"
    log := some { logBase with message := "m", stacktrace := [frNoMatch] }
    exception := some { exBase with stacktrace := [frMatch] } }

/-- No candidate anywhere: the client-supplied culprit survives. -/
def evCulpritNone : Event :=
  { emptyEvent with
    culprit := some "client"
    log := some { logBase with message := "m", stacktrace := [frNoMatch] }
    exception := some exBase }

theorem culprit_resolution_witness :
    (updateCulprit true evCulprit).culprit = some "file.js in fn" ∧
    (updateCulprit true evCulpritNone).culprit = some "client" := by
  constructor
  · exact ((culprit_resolution evCulprit).1 frMatch (by decide)).trans (by decide)
  · exact ((culprit_resolution evCulpritNone).2 (by decide)).trans (by decide)

/-! ## Helper lemmas: output document -/

theorem mget_mput_self (m : List (String × OVal)) (k : String) (v : OVal) :
    mget (mput m k v) k = some v := by
  induction m with
  | nil => simp [mput, mget]
  | cons kv rest ih =>
    obtain ⟨k', w⟩ := kv
    by_cases h : k' = k
    · subst h; simp [mput, mget]
    · rw [mput, if_neg h, mget, List.find?_cons_of_neg _ (by simpa using h)]
      exact ih

theorem mget_mput_ne (m : List (String × OVal)) (k' : String) (v : OVal) (k : String)
    (h : k' ≠ k) : mget (mput m k' v) k = mget m k := by
  induction m with
  | nil => simp [mput, mget, h]
  | cons kv rest ih =>
    obtain ⟨k1, w⟩ := kv
    by_cases h1 : k1 = k'
    · subst h1
      rw [mput, if_pos rfl, mget, mget,
        List.find?_cons_of_neg _ (by simpa using h),
        List.find?_cons_of_neg _ (by simpa using h)]
    · rw [mput, if_neg h1]
      by_cases h2 : k1 = k
      · subst h2
        rw [mget, mget, List.find?_cons_of_pos _ (by simp),
          List.find?_cons_of_pos _ (by simp)]
      · rw [mget, mget, List.find?_cons_of_neg _ (by simpa using h2),
          List.find?_cons_of_neg _ (by simpa using h2)]
        exact ih

theorem mget_filter_out (m : List (String × OVal)) (k : String) :
    mget (m.filter fun kv => kv.1 != k) k = none := by
  induction m with
  | nil => rfl
  | cons kv rest ih =>
    obtain ⟨k1, w⟩ := kv
    by_cases h : k1 = k
    · subst h; simpa [List.filter_cons] using ih
    · rw [List.filter_cons]
      simp only [show ((k1, w).1 != k) = true by simpa using h, if_true]
      rw [mget, List.find?_cons_of_neg _ (by simpa using h)]
      exact ih

theorem mget_filter_ne (m : List (String × OVal)) (k' k : String) (h : k' ≠ k) :
    mget (m.filter fun kv => kv.1 != k') k = mget m k := by
  induction m with
  | nil => rfl
  | cons kv rest ih =>
    obtain ⟨k1, w⟩ := kv
    by_cases h1 : k1 = k'
    · subst h1
      rw [List.filter_cons, if_neg (by simp)]
      have hr : mget ((k1, w) :: rest) k = mget rest k := by
        rw [mget, List.find?_cons_of_neg _ (by simpa using h)]
        rfl
      rw [hr]
      exact ih
    · rw [List.filter_cons, if_pos (by simpa using h1)]
      by_cases h2 : k1 = k
      · subst h2
        rw [mget, mget, List.find?_cons_of_pos _ (by simp),
          List.find?_cons_of_pos _ (by simp)]
      · have hl : mget ((k1, w) :: rest.filter fun kv => kv.1 != k') k =
            mget (rest.filter fun kv => kv.1 != k') k := by
          rw [mget, List.find?_cons_of_neg _ (by simpa using h2)]
          rfl
        have hr : mget ((k1, w) :: rest) k = mget rest k := by
          rw [mget, List.find?_cons_of_neg _ (by simpa using h2)]
          rfl
        rw [hl, hr]
        exact ih

theorem mget_mset_self (m : List (String × OVal)) (k : String) (v : Option OVal) :
    mget (mset m k v) k = v := by
  cases v with
  | none => exact mget_filter_out m k
  | some v => exact mget_mput_self m k v

theorem mget_mset_ne (m : List (String × OVal)) (k' : String) (v : Option OVal) (k : String)
    (h : k' ≠ k) : mget (mset m k' v) k = mget m k := by
  cases v with
  | none => exact mget_filter_ne m k' k h
  | some v => exact mget_mput_ne m k' v k h

/-! ## C5: transaction emission -/

theorem transactionGuard_iff (e : Event) :
    transactionGuard e = true ↔
      (e.transactionSampled.isSome = true ∨ e.transactionType.isSome = true ∨
        ∃ tid, e.transactionId = some tid ∧ tid ≠ "") := by
  unfold transactionGuard
  cases hid : e.transactionId <;> simp [hid, bne_iff_ne, or_assoc]

/-- C5: the transform emits a `transaction` sub-object — containing
whichever of `id`, `type`, `sampled` are present — iff
`transactionSampled` is present, or `transactionType` is present, or
`transactionId` is present and non-empty; otherwise the key is absent
from the output document. -/
theorem transform_transaction_emission (e : Event) (requestTime : Int)
    (base : List (String × OVal)) (hbase : mget base "transaction" = none) :
    (mget (transformDoc e requestTime base) "transaction" = none ↔
      ¬(e.transactionSampled.isSome = true ∨ e.transactionType.isSome = true ∨
        ∃ tid, e.transactionId = some tid ∧ tid ≠ "")) ∧
    ((e.transactionSampled.isSome = true ∨ e.transactionType.isSome = true ∨
        ∃ tid, e.transactionId = some tid ∧ tid ≠ "") →
      ∃ tr, mget (transformDoc e requestTime base) "transaction" = some (.oObj tr) ∧
        mget tr "id" = e.transactionId.map .oStr ∧
        mget tr "type" = e.transactionType.map .oStr ∧
        mget tr "sampled" = e.transactionSampled.map .oBool) := by
  have hts : mget (transformDoc e requestTime base) "transaction" =
      mget (transformTransaction e base) "transaction" :=
    mget_mput_ne _ _ _ _ (by decide)
  by_cases hg : transactionGuard e = true
  · have hcond := (transactionGuard_iff e).mp hg
    have hsome : mget (transformTransaction e base) "transaction" =
        some (.oObj (mset (mset (mset [] "id" (e.transactionId.map .oStr))
          "type" (e.transactionType.map .oStr)) "sampled" (e.transactionSampled.map .oBool))) := by
      rw [transformTransaction, if_pos hg]
      exact mget_mput_self _ _ _
    refine ⟨?_, fun _ => ?_⟩
    · rw [hts, hsome]
      simp [hcond]
    · refine ⟨_, by rw [hts, hsome], ?_, ?_, ?_⟩
      · rw [mget_mset_ne _ _ _ _ (by decide), mget_mset_ne _ _ _ _ (by decide),
          mget_mset_self]
      · rw [mget_mset_ne _ _ _ _ (by decide), mget_mset_self]
      · rw [mget_mset_self]
  · have hcond : ¬(e.transactionSampled.isSome = true ∨ e.transactionType.isSome = true ∨
        ∃ tid, e.transactionId = some tid ∧ tid ≠ "") :=
      fun hc => hg ((transactionGuard_iff e).mpr hc)
    have hnone : mget (transformDoc e requestTime base) "transaction" = none := by
      rw [hts, transformTransaction, if_neg hg]
      exact hbase
    exact ⟨by simp [hnone, hcond], fun hc => absurd hc hcond⟩

/-- Only `sampled` present (and it is `false`). -/
def evSampledOnly : Event := { emptyEvent with transactionSampled := some false }

/-- Only an empty-string `transactionId` present. -/
def evEmptyTid : Event := { emptyEvent with transactionId := some "" }

theorem transform_transaction_emission_witness :
    (∃ tr, mget (transformDoc evSampledOnly 0 []) "transaction" = some (.oObj tr) ∧
      mget tr "id" = none ∧ mget tr "type" = none ∧
      mget tr "sampled" = some (.oBool false)) ∧
    mget (transformDoc emptyEvent 0 []) "transaction" = none ∧
    mget (transformDoc evEmptyTid 0 []) "transaction" = none := by
  refine ⟨?_, ?_, ?_⟩
  · exact (transform_transaction_emission evSampledOnly 0 [] rfl).2 (Or.inl rfl)
  · exact (transform_transaction_emission emptyEvent 0 [] rfl).1.mpr
      (by rintro (h | h | ⟨tid, htid, hnz⟩) <;> simp_all [emptyEvent])
  · exact (transform_transaction_emission evEmptyTid 0 [] rfl).1.mpr
      (by rintro (h | h | ⟨tid, htid, hnz⟩) <;> simp_all [evEmptyTid, emptyEvent])

/-! ## C6: exception code normalization -/

/-- C6: the emitted exception `code` is the decimal string of an integer
code, the zero-decimal-places formatting of a floating-point code, a
string code verbatim, and the canonical literal of an
arbitrary-precision (`json.Number`) code; every other runtime type of
`code` leaves the field absent, and the projection is total. -/
theorem exception_code_normalization (ex : Exception) :
    mget (addExceptionFields ex) "code" =
      match ex.code with
      | .cInt n => some (.oStr (toString n))
      | .cFloat q => some (.oStr (goFmtF0 q))
      | .cStr s => some (.oStr s)
      | .cNumber s => some (.oStr s)
      | .cNull => none
      | .cOther => none := by
  unfold addExceptionFields
  cases hc : ex.code <;> simp only [hc] <;>
    first
      | exact mget_mput_self _ _ _
      | (rw [mget_mset_ne _ _ _ _ (by decide), mget_mset_ne _ _ _ _ (by decide),
          mget_mset_ne _ _ _ _ (by decide), mget_mset_ne _ _ _ _ (by decide),
          mget_mset_ne _ _ _ _ (by decide)]
         rfl)

/-! ## C7: timestamp resolution -/

/-- C7: the output document's `timestamp` (a microseconds-since-epoch
value) is the request receipt time when the Event's timestamp is the Go
zero value, and the Event's own timestamp — ignoring the request time —
when one is present. -/
theorem transform_timestamp_resolution (e : Event) (requestTime : Int)
    (base : List (String × OVal)) :
    (e.timestamp = none →
      mget (transformDoc e requestTime base) "timestamp" = some (.oInt requestTime)) ∧
    (∀ t, e.timestamp = some t →
      mget (transformDoc e requestTime base) "timestamp" = some (.oInt t)) := by
  constructor
  · intro h
    rw [transformDoc, mget_mput_self]
    simp [resolveTimestamp, h]
  · intro t h
    rw [transformDoc, mget_mput_self]
    simp [resolveTimestamp, h]

/-- Event with an explicit timestamp. -/
def evTs : Event := { emptyEvent with timestamp := some 55 }

theorem transform_timestamp_resolution_witness :
    mget (transformDoc emptyEvent 123 []) "timestamp" = some (.oInt 123) ∧
    mget (transformDoc evTs 123 []) "timestamp" = some (.oInt 55) :=
  ⟨(transform_timestamp_resolution emptyEvent 123 []).1 rfl,
   (transform_timestamp_resolution evTs 123 []).2 55 rfl⟩

/-! ## Helper lemmas: decoder -/

/-- A raw field that is present and not JSON `null`. -/
def isNonNull : Option RVal → Bool
  | none => false
  | some .rNull => false
  | some _ => true

/-- Inverting a successful decode: the sub-objects come from the two
part decoders and every accumulated error list is empty. -/
theorem decodeEvent_ok_inv (raw : List (String × RVal)) (ev : Event)
    (h : decodeEvent (some (.rObj raw)) (.ok ()) none = (some ev, [])) :
    ev.exception = (decodeExceptionPart raw).1 ∧ ev.log = (decodeLogPart raw).1 ∧
    scalarFieldErrs raw = [] ∧ (decodeExceptionPart raw).2 = [] ∧
    (decodeLogPart raw).2 = [] := by
  rcases hep : decodeExceptionPart raw with ⟨exc, excErrs⟩
  rcases hlp : decodeLogPart raw with ⟨lg, lgErrs⟩
  simp only [decodeEvent, hep, hlp] at h
  by_cases hcond : (scalarFieldErrs raw ++ excErrs ++ lgErrs).isEmpty = true
  · rw [if_pos hcond] at h
    have hnil : scalarFieldErrs raw ++ excErrs ++ lgErrs = [] := by
      simpa using hcond
    simp only [List.append_eq_nil] at hnil
    simp only [Prod.mk.injEq, Option.some.injEq] at h
    refine ⟨?_, ?_, hnil.1.1, hnil.1.2, hnil.2⟩
    · rw [← h.1]
    · rw [← h.1]
  · rw [if_neg hcond] at h
    simp only [Prod.mk.injEq] at h
    exact absurd h.1 (by simp)

theorem decodeExceptionPart_fst_isSome (raw : List (String × RVal)) :
    (decodeExceptionPart raw).1.isSome =
      ((stringPtrVal (mapStrVal raw "exception") "message").isSome ||
       (stringPtrVal (mapStrVal raw "exception") "type").isSome) := by
  rcases hst : decodeStacktraceM (lookupRaw (mapStrVal raw "exception") "stacktrace")
    with ⟨st, stErrs⟩
  simp only [decodeExceptionPart, hst]
  split
  next hcond => simp [hcond]
  next hcond =>
    simp only [Bool.or_eq_true, not_or, Bool.not_eq_true] at hcond
    simp [hcond.1, hcond.2]

theorem decodeExceptionPart_snd_nil (raw : List (String × RVal))
    (h : (decodeExceptionPart raw).2 = []) :
    stringPtrErrs (mapStrVal raw "exception") "message" = [] ∧
    stringPtrErrs (mapStrVal raw "exception") "type" = [] := by
  rcases hst : decodeStacktraceM (lookupRaw (mapStrVal raw "exception") "stacktrace")
    with ⟨st, stErrs⟩
  simp only [decodeExceptionPart, hst] at h
  split at h <;> simp only [List.append_eq_nil] at h <;> tauto

theorem decodeLogPart_fst_isSome (raw : List (String × RVal)) :
    (decodeLogPart raw).1.isSome = (stringPtrVal (mapStrVal raw "log") "message").isSome := by
  rcases hst : decodeStacktraceM (lookupRaw (mapStrVal raw "log") "stacktrace")
    with ⟨st, stErrs⟩
  simp only [decodeLogPart, hst]
  cases hm : stringPtrVal (mapStrVal raw "log") "message" <;> simp [hm]

theorem decodeLogPart_snd_nil (raw : List (String × RVal))
    (h : (decodeLogPart raw).2 = []) :
    stringPtrErrs (mapStrVal raw "log") "message" = [] := by
  rcases hst : decodeStacktraceM (lookupRaw (mapStrVal raw "log") "stacktrace")
    with ⟨st, stErrs⟩
  simp only [decodeLogPart, hst] at h
  split at h <;> simp only [List.append_eq_nil] at h <;> tauto

/-- When the field produced no decode error, `StringPtr` yields a value
exactly when the raw field is present and non-null. -/
theorem stringPtrVal_isSome_iff_nonNull (m : List (String × RVal)) (key : String)
    (h : stringPtrErrs m key = []) :
    (stringPtrVal m key).isSome = isNonNull (lookupRaw m key) := by
  cases hl : lookupRaw m key with
  | none => simp [stringPtrVal, isNonNull, hl]
  | some v =>
    cases v <;>
      first
        | (simp [stringPtrVal, isNonNull, hl]
           done)
        | (exfalso
           simp [stringPtrErrs, hl] at h)

/-! ## C8: presence rules of the decoder -/

/-- C8: for a raw record the decoder accepts, the Event's Exception is
constructed iff the raw exception bundle has a present, non-null
`message` or `type`, and the Log is constructed iff the raw log bundle
has a present, non-null `message`; presence is distinguished from the
empty string. -/
theorem decode_presence_rules (raw : List (String × RVal)) (ev : Event)
    (h : decodeEvent (some (.rObj raw)) (.ok ()) none = (some ev, [])) :
    (ev.exception.isSome = true ↔
      (isNonNull (lookupRaw (mapStrVal raw "exception") "message") = true ∨
       isNonNull (lookupRaw (mapStrVal raw "exception") "type") = true)) ∧
    (ev.log.isSome = true ↔ isNonNull (lookupRaw (mapStrVal raw "log") "message") = true) := by
  obtain ⟨hex, hlg, _, hexe, hlge⟩ := decodeEvent_ok_inv raw ev h
  obtain ⟨hm, ht⟩ := decodeExceptionPart_snd_nil raw hexe
  have hlm := decodeLogPart_snd_nil raw hlge
  constructor
  · rw [hex, decodeExceptionPart_fst_isSome,
      stringPtrVal_isSome_iff_nonNull _ _ hm, stringPtrVal_isSome_iff_nonNull _ _ ht]
    simp
  · rw [hlg, decodeLogPart_fst_isSome, stringPtrVal_isSome_iff_nonNull _ _ hlm]

/-- Raw record whose exception bundle has an empty-string message. -/
def rawEmptyMsg : List (String × RVal) :=
  [("exception", .rObj [("message", .rStr "")])]

/-- The Event the decoder produces for `rawEmptyMsg`. -/
def evEmptyMsg : Event :=
  { emptyEvent with exception := some { exBase with message := some "" } }

theorem decode_presence_rules_witness :
    evEmptyMsg.exception.isSome = true ∧
    evEmptyMsg.exception.map Exception.message = some (some "") := by
  refine ⟨?_, rfl⟩
  exact (decode_presence_rules rawEmptyMsg evEmptyMsg rfl).1.mpr (Or.inl rfl)

/-! ## C9: decode error discipline -/

/-- Raw record with a malformed `id`, a malformed `timestamp`, and
malformed stacktraces in both the exception and the log bundle. -/
def rawMulti : List (String × RVal) :=
  [("id", .rNum 3),
   ("timestamp", .rStr "bad"),
   ("exception", .rObj [("message", .rStr "m"), ("stacktrace", .rStr "bad")]),
   ("log", .rObj [("message", .rStr "lm"), ("stacktrace", .rNum 7)])]

/-- C9: the decoder fails immediately on a missing input or a
context-decode error; for a well-shaped record it accumulates every
field's decode failures — scalar fields, both sub-object bundles and
both stacktrace decodes — and returns the combined list only after all
fields were attempted, as the four independent failures of `rawMulti`
show; and whenever the combined error is non-nil, no Event is returned. -/
theorem decode_error_discipline :
    (∀ ctx : Except String Unit,
      decodeEvent none ctx none = (none, ["Input missing for decoding Event"])) ∧
    (∀ (raw : List (String × RVal)) (cmsg : String),
      decodeEvent (some (.rObj raw)) (.error cmsg) none = (none, [cmsg])) ∧
    (∀ raw : List (String × RVal),
      (decodeEvent (some (.rObj raw)) (.ok ()) none).2 =
        scalarFieldErrs raw ++ (decodeExceptionPart raw).2 ++ (decodeLogPart raw).2) ∧
    (decodeEvent (some (.rObj rawMulti)) (.ok ()) none =
      (none, ["error fetching field id", "error fetching field timestamp",
        "error decoding stacktrace", "error decoding stacktrace"])) ∧
    (∀ (input : Option RVal) (ctx : Except String Unit) (errIn : Option String),
      (decodeEvent input ctx errIn).2 ≠ [] → (decodeEvent input ctx errIn).1 = none) := by
  refine ⟨fun ctx => rfl, fun raw cmsg => rfl, fun raw => ?_, rfl, ?_⟩
  · rcases hep : decodeExceptionPart raw with ⟨exc, excErrs⟩
    rcases hlp : decodeLogPart raw with ⟨lg, lgErrs⟩
    simp only [decodeEvent, hep, hlp]
    by_cases hcond : (scalarFieldErrs raw ++ excErrs ++ lgErrs).isEmpty = true
    · rw [if_pos hcond]
      exact (show scalarFieldErrs raw ++ excErrs ++ lgErrs = [] by simpa using hcond).symm
    · rw [if_neg hcond]
  · intro input ctx errIn hne
    rcases errIn with _ | msg
    · rcases input with _ | v
      · rfl
      · rcases v with s | q | b | _ | vs | raw
        · rfl
        · rfl
        · rfl
        · rfl
        · rfl
        · rcases ctx with cmsg | u
          · rfl
          · rcases hep : decodeExceptionPart raw with ⟨exc, excErrs⟩
            rcases hlp : decodeLogPart raw with ⟨lg, lgErrs⟩
            simp only [decodeEvent, hep, hlp] at hne ⊢
            by_cases hcond : (scalarFieldErrs raw ++ excErrs ++ lgErrs).isEmpty = true
            · rw [if_pos hcond] at hne
              exact absurd rfl hne
            · rw [if_neg hcond]
    · rfl

theorem decode_error_discipline_witness :
    (decodeEvent (some (.rObj rawMulti)) (.ok ()) none).1 = none :=
  decode_error_discipline.2.2.2.2 (some (.rObj rawMulti)) (.ok ()) none (by decide)

end ApmError
